import Mathlib

/-!
Verification of the input-abstraction and room-editing subsystem of the
unnamed-turn-based-rpg repository (src/src/InputManager.ts and the
WorldRoomEditor it contains), against its natural-language specification.

The TypeScript classes are shallowly embedded as Lean structures and pure
functions.  Object identity (JavaScript references) is modelled with
integer ids into append-only stores, so that aliasing-sensitive operations
(save/restore, ageButtons through getAllButtons, Array.indexOf in the room
editor) keep their reference semantics.  JavaScript numbers are modelled
as `Rat` (all arithmetic in scope is exact), and counters as `Int`.
-/

namespace RPG

/-- Embeds `class Status` (InputManager.ts): five booleans describing one
control, all initialized to false. -/
structure Status where
  isDown : Bool
  wasDown : Bool
  isPressed : Bool
  isHeld : Bool
  isReleased : Bool
deriving DecidableEq, Repr

/-- The `Status` constructor: all fields false. -/
def Status.init : Status :=
  ⟨false, false, false, false, false⟩

/-- Embeds `Button.down()`: isDown := true, isHeld := wasDown,
isPressed := !wasDown, isReleased := false.  `wasDown` is untouched. -/
def buttonDown (s : Status) : Status :=
  { s with
    isDown := true
    isHeld := s.wasDown
    isPressed := !s.wasDown
    isReleased := false }

/-- Embeds `Button.up()`: isDown := false, isHeld := false,
isPressed := false, isReleased := wasDown. -/
def buttonUp (s : Status) : Status :=
  { s with
    isDown := false
    isHeld := false
    isPressed := false
    isReleased := s.wasDown }

/-- Embeds `Button.step(currentlyDown)` (the polled gamepad path). -/
def buttonStep (currentlyDown : Bool) (s : Status) : Status :=
  { s with
    isDown := currentlyDown
    isHeld := currentlyDown && s.wasDown
    isPressed := currentlyDown && !s.wasDown
    isReleased := !currentlyDown && s.wasDown }

/-- The per-button body of `InputManager.ageButtons()`:
wasDown := isDown, isReleased := false, isHeld := isDown,
isPressed := false. -/
def ageStatus (s : Status) : Status :=
  { s with
    wasDown := s.isDown
    isReleased := false
    isHeld := s.isDown
    isPressed := false }

/-- The discrete event-driven path for one step: a `down()` call when the
key is currently down, an `up()` call when it is up. -/
def discreteUpdate (currentlyDown : Bool) (s : Status) : Status :=
  if currentlyDown then buttonDown s else buttonUp s

/-- One full step of the discrete path: discrete update then aging. -/
def discreteStepAged (s : Status) (c : Bool) : Status :=
  ageStatus (discreteUpdate c s)

/-- One full step of the polled path: `step(c)` then aging. -/
def polledStepAged (s : Status) (c : Bool) : Status :=
  ageStatus (buttonStep c s)

/-- A 2D vector with exact rational components, standing for the repo's
`Vector` class (Vector.ts itself is not in the snapshot; only the
operations the claims exercise are modelled, see the doc comments of their
users). -/
structure VecQ where
  x : ℚ
  y : ℚ
deriving DecidableEq, Repr

/-- The four direction labels Directional.fn receives. -/
inductive Dir
  | up
  | down
  | left
  | right
deriving DecidableEq, Repr

/-- Embeds `class Directional` (InputManager.ts).  The four sub-buttons
are ids into the button store (they are shared mutable `Button` objects in
the source).  `fnTag` names the installed callback (`none` is the default
`noOp`).  `vec` stores the directional's intent vector UP TO A POSITIVE
SCALAR: the source stores `normalize(sum)` on the keyboard path and a
clamped-to-unit scaled reading on the gamepad path; `Vector.normalize` is
in the absent Vector.ts and per the spec scales by a positive factor
(mapping zero to zero), is generally irrational, and every consumer of
`vec` in the claims — the magnitude-zero test and the sign/absolute-value
comparisons in `Directional.step` — is invariant under positive scaling,
so the embedding keeps the unscaled rational vector. -/
structure Directional where
  upButton : Nat
  rightButton : Nat
  downButton : Nat
  leftButton : Nat
  hAxisIndex : Option Nat
  vAxisIndex : Option Nat
  vec : VecQ
  fnTag : Option String
  keyDelay : Int
  keyRate : Int
  keyCounter : Int
deriving DecidableEq, Repr

/-- A fresh directional as built by the `Directional` constructor, given
the ids of its four freshly created sub-buttons: vec = (0,0), fn = noOp,
keyDelay = 20, keyRate = 5, keyCounter = 0. -/
def mkDirectional (upId rightId downId leftId : Nat)
    (hAxisIndex vAxisIndex : Option Nat) : Directional :=
  { upButton := upId
    rightButton := rightId
    downButton := downId
    leftButton := leftId
    hAxisIndex := hAxisIndex
    vAxisIndex := vAxisIndex
    vec := ⟨0, 0⟩
    fnTag := none
    keyDelay := 20
    keyRate := 5
    keyCounter := 0 }

/-- Embeds `Directional.setVecFromButtons()`: unit contributions of the
four sub-buttons currently down (left: -x, right: +x, up: -y, down: +y).
The source starts from (0,0) and applies `x -= 1` (left), `x += 1`
(right), `y -= 1` (up), `y += 1` (down); the two updates per component
are tabulated here (e.g. left down and right up gives x = -1, both down
gives x = -1 + 1 = 0).  The source then normalizes the sum;
normalization is kept out per the positive-scaling invariance documented
on `Directional.vec` (it maps the zero vector to zero and scales a
non-zero vector by a positive factor). -/
def vecFromButtons (upD rightD downD leftD : Bool) : VecQ :=
  ⟨(match leftD, rightD with
    | false, false => (0 : ℚ)
    | false, true => 1
    | true, false => -1
    | true, true => 0),
   (match upD, downD with
    | false, false => (0 : ℚ)
    | false, true => 1
    | true, false => -1
    | true, true => 0)⟩

/-- Embeds `Directional.step()` (InputManager.ts lines 183-202).  The
source tests `this.vec.getMagnitude() === 0`; the Euclidean magnitude of a
vector is 0 exactly when both components are 0, which is the decidable
test used here.  On a zero vector the counter is reset to `keyDelay`.
Otherwise, when the counter is 0 the callback fires with a direction
label (note the source fires "up" when `vec.y > 0` and "down" otherwise)
and the counter is set to `keyRate`; the trailing `this.keyCounter--` of
the source runs in both non-zero branches, so the fire branch leaves
`keyRate - 1` and the other branch `keyCounter - 1`.  Returns the updated
directional and the fired label, if any. -/
def dirStep (d : Directional) : Directional × Option Dir :=
  if d.vec.x = 0 ∧ d.vec.y = 0 then
    ({ d with keyCounter := d.keyDelay }, none)
  else if d.keyCounter = 0 then
    ({ d with keyCounter := d.keyRate - 1 },
      some (if |d.vec.x| > |d.vec.y| then
              (if d.vec.x > 0 then Dir.right else Dir.left)
            else
              (if d.vec.y > 0 then Dir.up else Dir.down)))
  else
    ({ d with keyCounter := d.keyCounter - 1 }, none)

/-- Iterated `Directional.step()` under an externally supplied intent
schedule `v`: before step number `n` (0-indexed) the event/polling layer
has set `vec` to `v n`, then `step()` runs. -/
def dirRun (v : Nat → VecQ) (d0 : Directional) : Nat → Directional
  | 0 => d0
  | n + 1 => (dirStep { dirRun v d0 n with vec := v n }).1

/-- Whether step number `n` under schedule `v` fires the callback. -/
def dirFires (v : Nat → VecQ) (d0 : Directional) (n : Nat) : Bool :=
  ((dirStep { dirRun v d0 n with vec := v n }).2).isSome

/-- The claim C3 scenario: one step of zero intent, then non-zero intent
from the next step on (so the k-th step of non-zero intent is step k). -/
def c3Sched : Nat → VecQ :=
  fun n => if n = 0 then ⟨0, 0⟩ else ⟨1, 0⟩

/-- A directional with the default keyDelay = 20, keyRate = 5,
keyCounter = 0 and no gamepad axes, as the constructor produces. -/
def c3Dir : Directional :=
  mkDirectional 0 1 2 3 none none

/-- The directional state reached when only the down sub-button is held:
`setVecFromButtons` yields the contribution vector (0, 1) (down: +y), the
repeat counter is 0 and the next `step()` fires. -/
def c7Dir : Directional :=
  { mkDirectional 0 1 2 3 none none with
      vec := vecFromButtons false false true false
      keyCounter := 0 }

/-- Embeds `class Button` (identity-bearing part): keyboard key, optional
gamepad button index, mutable Status, and the installed callbacks.  A
callback is modelled by a tag naming the installed handler; `none` is the
default `noOp`. -/
structure ButtonObj where
  key : String
  gpButtonIndex : Option Nat
  status : Status
  onPressedTag : Option String
  onReleasedTag : Option String
deriving DecidableEq, Repr

/-- The `Button` constructor: fresh all-false Status, noOp callbacks. -/
def mkButton (key : String) (gpButtonIndex : Option Nat) : ButtonObj :=
  ⟨key, gpButtonIndex, Status.init, none, none⟩

/-- Fallback for out-of-range store reads (never reached for the ids the
operations produce). -/
def bDefault : ButtonObj := mkButton "" none

/-- Fallback for out-of-range directional-store reads. -/
def dDefault : Directional := mkDirectional 0 0 0 0 none none

/-- JavaScript `Map.set` on a name-keyed association list: replace in
place when the key exists (preserving insertion order), else append. -/
def mapSet (m : List (String × Nat)) (k : String) (v : Nat) :
    List (String × Nat) :=
  if m.any (fun p => p.1 == k) then
    m.map (fun p => if p.1 == k then (k, v) else p)
  else m ++ [(k, v)]

/-- JavaScript `Map.get`: value of the first (unique) matching key. -/
def mapGet (m : List (String × Nat)) (k : String) : Option Nat :=
  (m.find? (fun p => p.1 == k)).map Prod.snd

/-- JavaScript `Map.delete`. -/
def mapDelete (m : List (String × Nat)) (k : String) :
    List (String × Nat) :=
  m.filter (fun p => !(p.1 == k))

/-- Embeds the InputManager's state: the two stores hold every `Button`
and `Directional` object ever created (a JavaScript heap; list index =
object identity), the two name-keyed maps hold references (ids) into
them, plus the `usingKeyboard` flag and the single saved-controls slot.
The mouse callback triple lives outside the modelled state (the mouse
handlers only invoke it, see `mousedownHandler`). -/
structure IMState where
  store : List ButtonObj
  dirStore : List Directional
  buttons : List (String × Nat)
  directionals : List (String × Nat)
  usingKeyboard : Bool
  savedControls : Option (List (String × Nat) × List (String × Nat))
deriving DecidableEq, Repr

/-- The InputManager constructor's state: empty maps, usingKeyboard
false, no saved controls. -/
def emptyIM : IMState := ⟨[], [], [], [], false, none⟩

/-- Embeds `InputManager.registerButton`: allocates a fresh Button and
maps the name to it, overwriting a previous binding of the same name. -/
def registerButton (name key : String) (gp : Option Nat) (s : IMState) :
    IMState :=
  { s with
    store := s.store ++ [mkButton key gp]
    buttons := mapSet s.buttons name s.store.length }

/-- Embeds `InputManager.unregisterButton`. -/
def unregisterButton (name : String) (s : IMState) : IMState :=
  { s with buttons := mapDelete s.buttons name }

/-- Embeds `InputManager.registerDirectional`: the `Directional`
constructor allocates four fresh sub-Buttons (up, right, down, left, no
gamepad index) and the directional referencing them. -/
def registerDirectional (name upKey rightKey downKey leftKey : String)
    (hA vA : Option Nat) (s : IMState) : IMState :=
  let i := s.store.length
  { s with
    store := s.store ++
      [mkButton upKey none, mkButton rightKey none,
       mkButton downKey none, mkButton leftKey none]
    dirStore := s.dirStore ++ [mkDirectional i (i+1) (i+2) (i+3) hA vA]
    directionals := mapSet s.directionals name s.dirStore.length }

/-- Embeds `InputManager.unregisterAll`: fresh empty maps (objects stay
in the heap but become unreachable by name). -/
def unregisterAll (s : IMState) : IMState :=
  { s with buttons := [], directionals := [] }

/-- Embeds `InputManager.setOnPressed`: mutates the named button's
callback in place and reports success. -/
def setOnPressed (name : String) (tag : Option String) (s : IMState) :
    IMState × Bool :=
  match mapGet s.buttons name with
  | some i =>
    ({ s with
        store := s.store.set i
          { s.store.getD i bDefault with onPressedTag := tag } }, true)
  | none => (s, false)

/-- Embeds `InputManager.setOnReleased`. -/
def setOnReleased (name : String) (tag : Option String) (s : IMState) :
    IMState × Bool :=
  match mapGet s.buttons name with
  | some i =>
    ({ s with
        store := s.store.set i
          { s.store.getD i bDefault with onReleasedTag := tag } }, true)
  | none => (s, false)

/-- Embeds `InputManager.setDirectionalFunction`: mutates the named
directional's callback in place, if it exists. -/
def setDirectionalFunction (name : String) (tag : Option String)
    (s : IMState) : IMState :=
  match mapGet s.directionals name with
  | some i =>
    { s with
        dirStore := s.dirStore.set i
          { s.dirStore.getD i dDefault with fnTag := tag } }
  | none => s

/-- Embeds `InputManager.save()`: copies the two maps entry by entry into
fresh Maps (same name/reference pairs in the same order — in the value
model, the same association lists) and stores them in the single slot,
overwriting any outstanding snapshot (the source only logs a diagnostic
in that case).  The Button/Directional objects themselves are NOT
cloned. -/
def save (s : IMState) : IMState :=
  { s with savedControls := some (s.buttons, s.directionals) }

/-- Embeds `InputManager.restore()`: reinstalls the saved maps and clears
the slot; with no outstanding snapshot it only logs a diagnostic and
changes nothing. -/
def restore (s : IMState) : IMState :=
  match s.savedControls with
  | some sc =>
    { s with buttons := sc.1, directionals := sc.2, savedControls := none }
  | none => s

/-- Embeds `InputManager.getAllButtons()`.  The source pushes every entry
of the buttons map into `out`, then runs
`this.directionals.forEach(dir => out.concat(dir.getButtons()))`;
`Array.prototype.concat` returns a NEW array and that result is
discarded, so — contrary to the function's own doc comment — directional
sub-buttons never enter the output.  The embedding reproduces this: only
the registered buttons' ids are returned. -/
def getAllButtons (s : IMState) : List Nat :=
  s.buttons.map Prod.snd

/-- Ages the button object at one id (helper for `ageButtons`). -/
def ageAt (store : List ButtonObj) (i : Nat) : List ButtonObj :=
  store.set i
    { store.getD i bDefault with
        status := ageStatus (store.getD i bDefault).status }

/-- Embeds `InputManager.ageButtons()`: applies `ageStatus` to every
button object reachable through `getAllButtons`. -/
def ageButtons (s : IMState) : IMState :=
  { s with store := (getAllButtons s).foldl ageAt s.store }

/-- Order of `Directional.getButtons()`: up, right, down, left. -/
def subButtonIds (d : Directional) : List Nat :=
  [d.upButton, d.rightButton, d.downButton, d.leftButton]

/-- Embeds `dir.setVecFromButtons()` reading the sub-button statuses from the
store (see `vecFromButtons` for the dropped normalization). -/
def dirVecRefresh (store : List ButtonObj) (d : Directional) :
    Directional :=
  { d with
      vec := vecFromButtons
        (store.getD d.upButton bDefault).status.isDown
        (store.getD d.rightButton bDefault).status.isDown
        (store.getD d.downButton bDefault).status.isDown
        (store.getD d.leftButton bDefault).status.isDown }

/-- The shared body of `keydownHandler`/`keyupHandler` after the
`usingKeyboard := true` write: for every directional, every sub-button
whose key matches gets `down()`/`up()` and the directional's vector is
recomputed; then every registered button whose key matches gets
`down()`/`up()`.  (`e.preventDefault()` has no modelled effect.) -/
def keyEventBody (down : Bool) (key : String) (s : IMState) : IMState :=
  let s1 := s.directionals.foldl
    (fun st p =>
      let d := st.dirStore.getD p.2 dDefault
      let r := (subButtonIds d).foldl
        (fun (r : List ButtonObj × Directional) bid =>
          let b := r.1.getD bid bDefault
          if b.key == key then
            let store := r.1.set bid
              { b with status :=
                  if down then buttonDown b.status else buttonUp b.status }
            (store, dirVecRefresh store r.2)
          else r)
        (st.store, d)
      { st with store := r.1, dirStore := st.dirStore.set p.2 r.2 })
    s
  s1.buttons.foldl
    (fun st p =>
      let b := st.store.getD p.2 bDefault
      if b.key == key then
        let nb := { b with status :=
          if down then buttonDown b.status else buttonUp b.status }
        { st with store := st.store.set p.2 nb }
      else st)
    s1

/-- Embeds `InputManager.keydownHandler`: sets `usingKeyboard := true`
first, then updates matching sub-buttons and buttons with `down()`. -/
def keydownHandler (key : String) (s : IMState) : IMState :=
  keyEventBody true key { s with usingKeyboard := true }

/-- Embeds `InputManager.keyupHandler`: sets `usingKeyboard := true`
first, then updates matching sub-buttons and buttons with `up()`. -/
def keyupHandler (key : String) (s : IMState) : IMState :=
  keyEventBody false key { s with usingKeyboard := true }

/-- Embeds `InputManager.mousedownHandler`: its whole body is
`this.mouseFunctions.down(e)` — it invokes the user mouse callback
(default `noOp`) and writes no InputManager field, in particular not
`usingKeyboard`; on the manager's own state it is the identity. -/
def mousedownHandler (s : IMState) : IMState := s

/-- Embeds `InputManager.mouseupHandler` (body:
`this.mouseFunctions.up(e)`); identity on the manager's state. -/
def mouseupHandler (s : IMState) : IMState := s

/-- Embeds `InputManager.mousemoveHandler` (body:
`this.mouseFunctions.move(e)`); identity on the manager's state. -/
def mousemoveHandler (s : IMState) : IMState := s

/-- One entry of `gamepad.buttons`. -/
structure GPButton where
  value : ℚ
  pressed : Bool
deriving DecidableEq, Repr

/-- One gamepad as returned by `navigator.getGamepads()`. -/
structure Gamepad where
  connected : Bool
  axes : List ℚ
  buttons : List GPButton
deriving DecidableEq, Repr

/-- Value of `InputManager.deadZone` (= 0.2). -/
def deadZone : ℚ := 1/5

/-- Value of `InputManager.stickSensitivity` (= 1.4). -/
def stickSensitivity : ℚ := 7/5

/-- The `deadZoneGuard` closure of `getGamepadInput`: readings with
absolute value ≤ deadZone become 0. -/
def deadZoneGuard (x : ℚ) : ℚ :=
  if |x| > deadZone then x else 0

/-- The axis-reading pattern of `getGamepadInput`: 0 when the axis index
is undefined or `gamepad.axes[i]` is falsy (out of range or exactly 0),
else the dead-zone-guarded raw value. -/
def axisReading (axes : List ℚ) (ai : Option Nat) : ℚ :=
  match ai with
  | none => 0
  | some i =>
    if i < axes.length && axes.getD i 0 != 0 then
      deadZoneGuard (axes.getD i 0)
    else 0

/-- Whether one of a directional's two watched axes has a guarded
non-zero reading (the condition under which the axis check of
`getGamepadInput` sets `usingKeyboard := false`). -/
def dirAxisTrigger (gp : Gamepad) (d : Directional) : Bool :=
  axisReading gp.axes d.hAxisIndex != 0 ||
  axisReading gp.axes d.vAxisIndex != 0

/-- Whether a registered button's watched gamepad button exists and is
active (`value > 0 || pressed`), the condition under which the button
check of `getGamepadInput` sets `usingKeyboard := false`. -/
def gpButtonActive (gp : Gamepad) (b : ButtonObj) : Bool :=
  match b.gpButtonIndex with
  | none => false
  | some bi =>
    bi < gp.buttons.length &&
      (let gb := gp.buttons.getD bi ⟨0, false⟩
       decide (0 < gb.value) || gb.pressed)

/-- The vector-overwrite loop body of `getGamepadInput`: one
directional's vector is set to the sensitivity-scaled guarded readings
(h axis → x, v axis → y; the clamp-to-unit normalization is dropped per
the positive-scaling invariance documented on `Directional.vec`). -/
def gpDirOverwrite (gp : Gamepad) (ds : List Directional)
    (p : String × Nat) : List Directional :=
  let d := ds.getD p.2 dDefault
  let nd := { d with vec :=
    ⟨stickSensitivity * axisReading gp.axes d.hAxisIndex,
     stickSensitivity * axisReading gp.axes d.vAxisIndex⟩ }
  ds.set p.2 nd

/-- The button-overwrite loop body of `getGamepadInput`: a registered
button with a watched, existing gamepad button is updated through the
polled `step(value > 0 || pressed)` path. -/
def gpButtonOverwrite (gp : Gamepad) (st : List ButtonObj)
    (p : String × Nat) : List ButtonObj :=
  let b := st.getD p.2 bDefault
  match b.gpButtonIndex with
  | none => st
  | some bi =>
    if bi < gp.buttons.length then
      let gb := gp.buttons.getD bi ⟨0, false⟩
      let cd := decide (0 < gb.value) || gb.pressed
      let nb := { b with status := buttonStep cd b.status }
      st.set p.2 nb
    else st

/-- The per-gamepad body of `InputManager.getGamepadInput`: disconnected
gamepads are skipped; the axis and button checks run first and can only
set `usingKeyboard` to false (the sequential `usingKeyboard = false`
writes of the source amount to conjoining the negated triggers); then,
only if `usingKeyboard` ended up false, every directional's vector and
every watched registered button is overwritten (`gpDirOverwrite`,
`gpButtonOverwrite`). -/
def processGamepad (gp : Gamepad) (s : IMState) : IMState :=
  if !gp.connected then s
  else
    let uk := (s.usingKeyboard &&
        !(s.directionals.any
            (fun p => dirAxisTrigger gp (s.dirStore.getD p.2 dDefault)))) &&
      !(s.buttons.any
          (fun p => gpButtonActive gp (s.store.getD p.2 bDefault)))
    let s1 := { s with usingKeyboard := uk }
    if uk then s1
    else
      let s2 := { s1 with
        dirStore := s1.directionals.foldl (gpDirOverwrite gp) s1.dirStore }
      { s2 with
        store := s2.buttons.foldl (gpButtonOverwrite gp) s2.store }

/-- Embeds `InputManager.getGamepadInput`, iterating over the connected
gamepads of `navigator.getGamepads()`. -/
def getGamepadInput (gps : List Gamepad) (s : IMState) : IMState :=
  gps.foldl (fun st gp => processGamepad gp st) s

/-- Observable callback invocations of one `InputManager.step()`: the
invoked closure is identified by the owning object's id and its installed
tag (`none` = the default `noOp`, which the source also invokes). -/
inductive Event
  | pressed (id : Nat) (tag : Option String)
  | released (id : Nat) (tag : Option String)
  | dirFired (id : Nat) (tag : Option String) (d : Dir)
deriving DecidableEq, Repr

/-- Phase (1) of `InputManager.step()`: `dir.step()` on every registered
directional, collecting fired repeat callbacks. -/
def stepDirectionals (s : IMState) : IMState × List Event :=
  s.directionals.foldl
    (fun acc p =>
      let d := acc.1.dirStore.getD p.2 dDefault
      let r := dirStep d
      ({ acc.1 with dirStore := acc.1.dirStore.set p.2 r.1 },
        acc.2 ++ (match r.2 with
          | some dl => [Event.dirFired p.2 d.fnTag dl]
          | none => [])))
    (s, [])

/-- Phase (3) of `InputManager.step()`: for every button returned by
`getAllButtons`, invoke `onPressed` when `isPressed` is set and
`onReleased` when `isReleased` is set (`b.onPressed`/`b.onReleased` are
always truthy in the source, the default being `noOp`). -/
def fireCallbacks (s : IMState) : List Event :=
  (getAllButtons s).foldl
    (fun evs i =>
      let b := s.store.getD i bDefault
      evs ++ (if b.status.isPressed then [Event.pressed i b.onPressedTag]
              else [])
          ++ (if b.status.isReleased then [Event.released i b.onReleasedTag]
              else []))
    []

/-- Embeds `InputManager.step()`: (1) step all directionals, (2) poll
the gamepads, (3) fire edge callbacks for every button of
`getAllButtons`, (4) age all buttons.  Returns the new state and the
callback invocations in order. -/
def imStep (gps : List Gamepad) (s : IMState) : IMState × List Event :=
  let r1 := stepDirectionals s
  let s2 := getGamepadInput gps r1.1
  (ageButtons s2, r1.2 ++ fireCallbacks s2)

/-- Embeds the `menuNavigationInputs` record of the InputManager. -/
structure MenuNavigationInputs where
  up : String
  right : String
  down : String
  left : String
  hAxis : Option Nat
  vAxis : Option Nat
  clickKey : String
  clickGP : Option Nat
  cancelKey : String
  cancelGP : Option Nat
  fullscreenKey : String
  fullscreenGP : Option Nat
deriving DecidableEq, Repr

/-- The value assigned in the InputManager constructor. -/
def defaultMenuNavigationInputs : MenuNavigationInputs :=
  ⟨"w", "d", "s", "a", some 0, some 1, "space", some 4, "tab", some 3,
   "f", some 8⟩

/-- Embeds `InputManager.enterMenuMode()` verbatim: unregister all, then
register the "navigation" directional, the "enter", "cancel" and
"fullscreen" buttons, and wire "fullscreen" to the display collaborator's
fullscreen toggle.  NOTE (faithful to the source, lines 332-336): the
"cancel" button is registered with `clickKey`/`clickGP`, not with the
configured `cancelKey`/`cancelGP`, which are never read. -/
def enterMenuMode (m : MenuNavigationInputs) (s : IMState) : IMState :=
  let s := unregisterAll s
  let s := registerDirectional "navigation" m.up m.right m.down m.left
    m.hAxis m.vAxis s
  let s := registerButton "enter" m.clickKey m.clickGP s
  let s := registerButton "cancel" m.clickKey m.clickGP s
  let s := registerButton "fullscreen" m.fullscreenKey m.fullscreenGP s
  (setOnPressed "fullscreen" (some "DM.toggleFullScreen") s).1

/-- The two editing modes of the room editor (`enum Mode`). -/
inductive EditorMode
  | select
  | drawBarrier
deriving DecidableEq, Repr

/-- Embeds the state of `class WorldRoomEditor`.  Polygons, backgrounds
and entities are JavaScript objects compared by reference in the source
(`Array.indexOf`), so they are modelled as ids; `polyStore` holds every
`Polygon` object's ordered point list (list index = object identity),
while `bgs`/`entities` are the current room's ordered background/entity
lists (ids only — their boxes are not needed by any claim).  `hasRoom`
models `this.currentRoom !== undefined`. -/
structure RoomEditor where
  polyStore : List (List VecQ)
  completedPolygons : List Nat
  selectedPolygon : Option Nat
  selectedBgObj : Option Nat
  selectedEntity : Option Nat
  bgs : List Nat
  entities : List Nat
  hasRoom : Bool
  mode : EditorMode
  mouseIsDown : Bool
  dragging : Bool
  mousePos : VecQ
deriving DecidableEq, Repr

/-- JavaScript `Array.prototype.indexOf` with strict (reference)
equality, returning `none` where the source gets -1. -/
def arrIndexOf : List Nat → Nat → Option Nat
  | [], _ => none
  | x :: xs, a => if x == a then some 0 else (arrIndexOf xs a).map (· + 1)

/-- Embeds `WorldRoomEditor.mousedownHandler` (the `vec` argument is the
already camera-adjusted world coordinate of the click, `button` is
`ev.button`).  A right click (`button === 2`) only starts camera
dragging.  In drawBarrier mode the point is appended to the in-progress
polygon (created on the first click if absent); on a shift-click, if the
polygon now has more than 2 points it is pushed to the completed list
and the in-progress slot is cleared.  The select-mode branch performs
hit tests through `Polygon.contains`/`Box.contains`, which live in files
absent from the snapshot and outside every claim; it is modelled as
having no further effect here and is never exercised below. -/
def editorMousedown (shiftKey : Bool) (button : Nat) (vec : VecQ)
    (e : RoomEditor) : RoomEditor :=
  let e1 := { e with mouseIsDown := true, mousePos := vec }
  if button == 2 then
    { e1 with dragging := true }
  else if e1.mode = EditorMode.drawBarrier then
    let pe :=
      match e1.selectedPolygon with
      | some pid => (pid, e1)
      | none =>
        (e1.polyStore.length,
          { e1 with
              polyStore := e1.polyStore ++ [[]]
              selectedPolygon := some e1.polyStore.length })
    let pid := pe.1
    let e2 := pe.2
    let pts := e2.polyStore.getD pid [] ++ [vec]
    let e3 := { e2 with polyStore := e2.polyStore.set pid pts }
    if shiftKey then
      if pts.length > 2 then
        { e3 with
            completedPolygons := e3.completedPolygons ++ [pid]
            selectedPolygon := none }
      else e3
    else e3
  else e1

/-- Embeds `WorldRoomEditor.delete()`:  if a polygon is selected, remove
it from the completed list when (and only when) it is an element of that
list (reference equality), clearing the selection, and RETURN in either
case; otherwise, if a room is set and a background is selected and found
in the room's background list, remove it, clear the selection and
return; otherwise (including a selected-but-not-found background) fall
through to the entity branch. -/
def editorDelete (e : RoomEditor) : RoomEditor :=
  match e.selectedPolygon with
  | some pid =>
    match arrIndexOf e.completedPolygons pid with
    | some i =>
      { e with
          completedPolygons := e.completedPolygons.eraseIdx i
          selectedPolygon := none }
    | none => e
  | none =>
    let entityBranch := fun (e' : RoomEditor) =>
      if e'.hasRoom then
        match e'.selectedEntity with
        | some eid =>
          match arrIndexOf e'.entities eid with
          | some i =>
            { e' with
                entities := e'.entities.eraseIdx i
                selectedEntity := none }
          | none => e'
        | none => e'
      else e'
    if e.hasRoom then
      match e.selectedBgObj with
      | some bid =>
        match arrIndexOf e.bgs bid with
        | some i =>
          { e with bgs := e.bgs.eraseIdx i, selectedBgObj := none }
        | none => entityBranch e
      | none => entityBranch e
    else entityBranch e

/-- A freshly constructed room editor (constructor of `WorldRoomEditor`:
no polygons, nothing selected, drawBarrier mode) with an attached room
that has no backgrounds or entities. -/
def freshEditor : RoomEditor :=
  { polyStore := []
    completedPolygons := []
    selectedPolygon := none
    selectedBgObj := none
    selectedEntity := none
    bgs := []
    entities := []
    hasRoom := true
    mode := EditorMode.drawBarrier
    mouseIsDown := false
    dragging := false
    mousePos := ⟨0, 0⟩ }

/-- An editor whose selected polygon is the in-progress authoring
polygon (id 5), which is not an element of the completed list, with a
completed polygon, a background and an entity present. -/
def c10E : RoomEditor :=
  { freshEditor with
      polyStore := [[⟨0, 0⟩, ⟨1, 0⟩, ⟨0, 1⟩], [], [], [], [], [⟨2, 2⟩]]
      completedPolygons := [0]
      selectedPolygon := some 5
      bgs := [3]
      entities := [4] }

/-- Two plain left-clicks in drawBarrier mode on a fresh editor. -/
def c6TwoClicks : RoomEditor :=
  editorMousedown false 0 ⟨1, 1⟩ (editorMousedown false 0 ⟨0, 0⟩ freshEditor)

/-- A third, shift-click after the two plain clicks. -/
def c6ShiftThird : RoomEditor :=
  editorMousedown true 0 ⟨2, 0⟩ c6TwoClicks

/-- The InputManager state of the C2 scenario: one registered
directional ("nav", keys w/d/s/a) and no registered buttons, after a
`keydown` of "w" pressed its up sub-button (button id 0). -/
def c2State : IMState :=
  keydownHandler "w" (registerDirectional "nav" "w" "d" "s" "a" none none emptyIM)

/-- The InputManager state after `enterMenuMode` with the default
`menuNavigationInputs`, starting from a state that had one old control
registered. -/
def c8State : IMState :=
  enterMenuMode defaultMenuNavigationInputs
    (registerButton "old" "q" none emptyIM)

/-- A state with one registered button watching gamepad button 0, with
keyboard authority. -/
def c4S : IMState :=
  { registerButton "fire" "f" (some 0) emptyIM with usingKeyboard := true }

/-- A connected gamepad whose button 0 is pressed with value 1. -/
def c4Gp : Gamepad :=
  { connected := true, axes := [], buttons := [⟨1, true⟩] }

/-- Operations a client may interleave between `save()` and `restore()`:
registrations, unregistrations, and mutations of the control objects
(callback installation, key events, whole input steps). -/
inductive IMOp
  | regButton (name key : String) (gp : Option Nat)
  | unregButton (name : String)
  | regDirectional (name upKey rightKey downKey leftKey : String)
      (hA vA : Option Nat)
  | unregAll
  | setPressed (name : String) (tag : Option String)
  | setReleased (name : String) (tag : Option String)
  | setDirFunction (name : String) (tag : Option String)
  | keydown (key : String)
  | keyup (key : String)
  | stepAll (gps : List Gamepad)

/-- Interpretation of one interleaved operation. -/
def applyOp (o : IMOp) (s : IMState) : IMState :=
  match o with
  | .regButton n k g => registerButton n k g s
  | .unregButton n => unregisterButton n s
  | .regDirectional n u r d l hA vA => registerDirectional n u r d l hA vA s
  | .unregAll => unregisterAll s
  | .setPressed n t => (setOnPressed n t s).1
  | .setReleased n t => (setOnReleased n t s).1
  | .setDirFunction n t => setDirectionalFunction n t s
  | .keydown k => keydownHandler k s
  | .keyup k => keyupHandler k s
  | .stepAll gps => (imStep gps s).1

/-- A sequence of interleaved operations. -/
def applyOps (l : List IMOp) (s : IMState) : IMState :=
  l.foldl (fun st o => applyOp o st) s

/-- The condition under which the check phase of `getGamepadInput` turns
`usingKeyboard` off for one gamepad: some registered directional has a
watched axis whose guarded reading is non-zero, or some registered
button's watched gamepad button exists and is active. -/
def gpTrigger (gp : Gamepad) (s : IMState) : Bool :=
  s.directionals.any
    (fun p => dirAxisTrigger gp (s.dirStore.getD p.2 dDefault)) ||
  s.buttons.any
    (fun p => gpButtonActive gp (s.store.getD p.2 bDefault))

/-- The discrete path (`down()` for a down step, `up()` for an up step)
computes exactly the same Status as the polled path `step(currentlyDown)`. -/
theorem discreteUpdate_eq_buttonStep (c : Bool) (s : Status) :
    discreteUpdate c s = buttonStep c s := by
  cases c <;> rfl

/-- One aged step of the discrete path equals one aged step of the polled
path. -/
theorem stepAged_eq (s : Status) (c : Bool) :
    discreteStepAged s c = polledStepAged s c := by
  unfold discreteStepAged polledStepAged
  rw [discreteUpdate_eq_buttonStep]

/-- The per-step Status traces of the two paths coincide for every input
sequence. -/
theorem scanl_paths_eq (l : List Bool) (t : Status) :
    List.scanl discreteStepAged t l = List.scanl polledStepAged t l := by
  induction l generalizing t with
  | nil => rfl
  | cons c l ih => simp only [List.scanl, stepAged_eq, ih]

/-- C1: for every Button and per-step update via exactly one of the two
paths — discrete `down()`/`up()` or polled `step(currentlyDown)` — the
resulting Status satisfies the §4.1 table (isPressed = currentlyDown AND
NOT wasDown, isHeld = currentlyDown AND wasDown, isReleased = NOT
currentlyDown AND wasDown, isDown = currentlyDown), and for all sequences
of down()/up() calls alternated with aging both paths produce identical
Status fields each step. -/
theorem c1_button_paths_agree_and_match_table (s : Status) (c : Bool) :
    discreteUpdate c s = buttonStep c s ∧
    ((buttonStep c s).isDown = c ∧
      (buttonStep c s).isPressed = (c && !s.wasDown) ∧
      (buttonStep c s).isHeld = (c && s.wasDown) ∧
      (buttonStep c s).isReleased = (!c && s.wasDown)) ∧
    (∀ (l : List Bool) (t : Status),
      List.scanl discreteStepAged t l = List.scanl polledStepAged t l) := by
  exact ⟨discreteUpdate_eq_buttonStep c s, ⟨rfl, rfl, rfl, rfl⟩,
    scanl_paths_eq⟩

/-- C9: the aging pass additionally sets isHeld to isDown (beyond the
spec-stated wasDown := isDown and clearing of isPressed/isReleased), and
leaves isDown itself unchanged, so a button that is still down reports
isHeld = true immediately after aging. -/
theorem c9_ageButtons_sets_isHeld (s : Status) :
    (ageStatus s).isHeld = s.isDown ∧
    (ageStatus s).isDown = s.isDown ∧
    (ageStatus s).wasDown = s.isDown ∧
    (ageStatus s).isPressed = false ∧
    (ageStatus s).isReleased = false :=
  ⟨rfl, rfl, rfl, rfl, rfl⟩

/-- C2 (code bug, evaluated at the failing input): in `c2State` the
"nav" directional's up sub-button (object id 0) has its isPressed edge
set, yet a full `InputManager.step()` with no gamepads invokes no
onPressed/onReleased callback for it (the only observable invocation is
the directional's own repeat callback) and does not age it: its Status
is bit-for-bit unchanged (wasDown still false, isPressed still set).
Cause: `getAllButtons` discards the result of `out.concat(...)`, so —
against its own doc comment and the spec — directional sub-buttons are
excluded from callback dispatch and aging. -/
theorem c2_sub_buttons_not_fired_nor_aged :
    (c2State.store.getD 0 bDefault).status =
      ⟨true, false, true, false, false⟩ ∧
    getAllButtons c2State = [] ∧
    (imStep [] c2State).2 = [Event.dirFired 0 none Dir.down] ∧
    ((imStep [] c2State).1.store.getD 0 bDefault).status =
      ⟨true, false, true, false, false⟩ := by
  decide

/-- C6 (counterexample): on a fresh drawBarrier editor, after only TWO
plain clicks, a shift-click does NOT leave the polygon in progress as
the claim states: the polygon (now 3 points > 2) is moved to the
completed list and the in-progress slot is cleared. -/
theorem c6_counterexample_two_clicks_shift_completes :
    c6TwoClicks.completedPolygons = [] ∧
    c6TwoClicks.selectedPolygon = some 0 ∧
    c6TwoClicks.polyStore.getD 0 [] = [⟨0, 0⟩, ⟨1, 1⟩] ∧
    c6ShiftThird.completedPolygons = [0] ∧
    c6ShiftThird.selectedPolygon = none ∧
    c6ShiftThird.polyStore.getD 0 [] = [⟨0, 0⟩, ⟨1, 1⟩, ⟨2, 0⟩] := by
  decide

/-- C7 (code bug, evaluated at the failing input): holding only the down
sub-button makes `setVecFromButtons` produce the contribution vector
(0, 1) (down contributes +y), and with the repeat counter at 0 the next
`Directional.step()` fires the callback with the label "up" — whereas
the claim (and the contribution convention) requires "down" for
y > 0.  The source's vertical labels are inverted: it fires "up" when
`vec.y > 0` and "down" otherwise. -/
theorem c7_down_contribution_fires_up_label :
    vecFromButtons false false true false = ⟨0, 1⟩ ∧
    decide (c7Dir.vec.y > 0) = true ∧
    (dirStep c7Dir).2 = some Dir.up ∧
    Dir.up ≠ Dir.down := by
  decide

/-- C8 (code bug, evaluated at the failing input): after
`enterMenuMode()` with the default configuration, all previous controls
are gone and exactly the preset exists — "navigation" directional with
the configured keys and axes, "enter" and "fullscreen" correctly bound,
"fullscreen" wired to the display collaborator's toggle — but the
"cancel" button is registered with `clickKey`/`clickGP` ("space"/4)
instead of the configured `cancelKey`/`cancelGP` ("tab"/3), which the
source never reads. -/
theorem c8_cancel_bound_to_click_inputs :
    c8State.buttons.map Prod.fst = ["enter", "cancel", "fullscreen"] ∧
    c8State.directionals.map Prod.fst = ["navigation"] ∧
    mapGet c8State.buttons "old" = none ∧
    (mapGet c8State.directionals "navigation" = some 0 ∧
      (c8State.store.getD (c8State.dirStore.getD 0 dDefault).upButton
        bDefault).key = "w" ∧
      (c8State.store.getD (c8State.dirStore.getD 0 dDefault).rightButton
        bDefault).key = "d" ∧
      (c8State.store.getD (c8State.dirStore.getD 0 dDefault).downButton
        bDefault).key = "s" ∧
      (c8State.store.getD (c8State.dirStore.getD 0 dDefault).leftButton
        bDefault).key = "a" ∧
      (c8State.dirStore.getD 0 dDefault).hAxisIndex = some 0 ∧
      (c8State.dirStore.getD 0 dDefault).vAxisIndex = some 1) ∧
    (mapGet c8State.buttons "enter" = some 5 ∧
      (c8State.store.getD 5 bDefault).key = "space" ∧
      (c8State.store.getD 5 bDefault).gpButtonIndex = some 4) ∧
    (mapGet c8State.buttons "fullscreen" = some 7 ∧
      (c8State.store.getD 7 bDefault).key = "f" ∧
      (c8State.store.getD 7 bDefault).gpButtonIndex = some 8 ∧
      (c8State.store.getD 7 bDefault).onPressedTag =
        some "DM.toggleFullScreen") ∧
    (mapGet c8State.buttons "cancel" = some 6 ∧
      (c8State.store.getD 6 bDefault).key = "space" ∧
      (c8State.store.getD 6 bDefault).gpButtonIndex = some 4 ∧
      defaultMenuNavigationInputs.cancelKey = "tab" ∧
      defaultMenuNavigationInputs.cancelGP = some 3 ∧
      (c8State.store.getD 6 bDefault).key ≠
        defaultMenuNavigationInputs.cancelKey) := by
  decide

/-- C3 (counterexample): with keyDelay = 20, keyRate = 5, a zero-intent
step followed by non-zero intent from then on (so the k-th step of
non-zero intent is step k of `c3Sched`), the callback does NOT fire on
any of the first 20 steps of non-zero intent — in particular not on the
20th, where the claim places the first firing — and fires for the first
time on the 21st. -/
theorem c3_counterexample_no_fire_at_step_20 :
    (List.range 20).all (fun i => !(dirFires c3Sched c3Dir (i + 1))) = true ∧
    dirFires c3Sched c3Dir 20 = false ∧
    dirFires c3Sched c3Dir 21 = true := by
  decide

/-- Stepping a directional does not change keyDelay. -/
theorem dirStep_keyDelay (d : Directional) :
    (dirStep d).1.keyDelay = d.keyDelay := by
  unfold dirStep
  split
  · rfl
  · split <;> rfl

/-- Stepping a directional does not change keyRate. -/
theorem dirStep_keyRate (d : Directional) :
    (dirStep d).1.keyRate = d.keyRate := by
  unfold dirStep
  split
  · rfl
  · split <;> rfl

/-- On a zero intent vector, `step()` resets the counter to keyDelay and
does not fire. -/
theorem dirStep_zero (d : Directional) (h : d.vec.x = 0 ∧ d.vec.y = 0) :
    dirStep d = ({ d with keyCounter := d.keyDelay }, none) := by
  unfold dirStep
  rw [if_pos h]

/-- On a non-zero intent vector with counter 0, `step()` fires and
leaves the counter at keyRate - 1 (the trailing decrement of the source
runs after the reset to keyRate). -/
theorem dirStep_fire (d : Directional) (h : ¬(d.vec.x = 0 ∧ d.vec.y = 0))
    (h0 : d.keyCounter = 0) :
    (dirStep d).1 = { d with keyCounter := d.keyRate - 1 } ∧
    (dirStep d).2.isSome = true := by
  unfold dirStep
  rw [if_neg h, if_pos h0]
  exact ⟨rfl, rfl⟩

/-- On a non-zero intent vector with counter ≠ 0, `step()` decrements
the counter and does not fire. -/
theorem dirStep_tick (d : Directional) (h : ¬(d.vec.x = 0 ∧ d.vec.y = 0))
    (h0 : ¬d.keyCounter = 0) :
    dirStep d = ({ d with keyCounter := d.keyCounter - 1 }, none) := by
  unfold dirStep
  rw [if_neg h, if_neg h0]

/-- C3 (amended): for a Directional with keyDelay = 20 and keyRate = 5
whose intent is zero at step 0 and non-zero from step 1 on, every step
with zero intent holds the counter at keyDelay and fires nothing, and
the callback fires exactly on non-zero steps 21, 26, 31, ... (the first
fire is on the 21st step of non-zero intent — equivalently on step 20
when steps are counted from 0 — then every keyRate = 5 steps). -/
theorem c3_amended_key_repeat (v : Nat → VecQ) (d0 : Directional)
    (hdelay : d0.keyDelay = 20) (hrate : d0.keyRate = 5)
    (h0 : (v 0).x = 0 ∧ (v 0).y = 0)
    (hn : ∀ n, 1 ≤ n → ¬((v n).x = 0 ∧ (v n).y = 0)) :
    (∀ k, 1 ≤ k →
      (dirFires v d0 k = true ↔ 21 ≤ k ∧ (k - 21) % 5 = 0)) ∧
    (∀ d : Directional, d.vec.x = 0 ∧ d.vec.y = 0 →
      dirStep d = ({ d with keyCounter := d.keyDelay }, none)) := by
  have hrat : ∀ k, (dirRun v d0 k).keyRate = 5 := by
    intro k
    induction k with
    | zero => exact hrate
    | succ k ih =>
      show (dirStep { dirRun v d0 k with vec := v k }).1.keyRate = 5
      rw [dirStep_keyRate]
      exact ih
  have hstep_ctr : ∀ k, 1 ≤ k →
      (dirRun v d0 (k + 1)).keyCounter =
        (if (dirRun v d0 k).keyCounter = 0 then 4
         else (dirRun v d0 k).keyCounter - 1) := by
    intro k hk
    by_cases h0' : (dirRun v d0 k).keyCounter = 0
    · rw [if_pos h0']
      show (dirStep { dirRun v d0 k with vec := v k }).1.keyCounter = 4
      have hf := dirStep_fire { dirRun v d0 k with vec := v k } (hn k hk) h0'
      rw [hf.1]
      show (dirRun v d0 k).keyRate - 1 = 4
      rw [hrat k]
      decide
    · rw [if_neg h0']
      show (dirStep { dirRun v d0 k with vec := v k }).1.keyCounter =
        (dirRun v d0 k).keyCounter - 1
      rw [dirStep_tick { dirRun v d0 k with vec := v k } (hn k hk) h0']
  have hfires : ∀ k, 1 ≤ k →
      (dirFires v d0 k = true ↔ (dirRun v d0 k).keyCounter = 0) := by
    intro k hk
    unfold dirFires
    by_cases h0' : (dirRun v d0 k).keyCounter = 0
    · have hf := dirStep_fire { dirRun v d0 k with vec := v k } (hn k hk) h0'
      rw [hf.2]
      simp [h0']
    · rw [dirStep_tick { dirRun v d0 k with vec := v k } (hn k hk) h0']
      simp [h0']
  have hc1 : (dirRun v d0 1).keyCounter = 20 := by
    show (dirStep { d0 with vec := v 0 }).1.keyCounter = 20
    rw [dirStep_zero { d0 with vec := v 0 } h0]
    exact hdelay
  have hdown : ∀ j, j ≤ 20 →
      (dirRun v d0 (1 + j)).keyCounter = 20 - (j : Int) := by
    intro j
    induction j with
    | zero =>
      intro _
      simpa using hc1
    | succ j ih =>
      intro hj
      have hcj := ih (Nat.le_of_succ_le hj)
      have hne : (dirRun v d0 (1 + j)).keyCounter ≠ 0 := by
        rw [hcj]
        have : j ≤ 19 := by omega
        omega
      have hs := hstep_ctr (1 + j) (by omega)
      rw [if_neg hne, hcj] at hs
      have h1 : 1 + (j + 1) = (1 + j) + 1 := by omega
      rw [h1, hs]
      push_cast
      ring
  have hadv : ∀ k, 1 ≤ k → (dirRun v d0 k).keyCounter = 0 →
      (dirRun v d0 (k + 1)).keyCounter = 4 ∧
      (dirRun v d0 (k + 2)).keyCounter = 3 ∧
      (dirRun v d0 (k + 3)).keyCounter = 2 ∧
      (dirRun v d0 (k + 4)).keyCounter = 1 ∧
      (dirRun v d0 (k + 5)).keyCounter = 0 := by
    intro k hk h0'
    have h1 := hstep_ctr k hk
    rw [if_pos h0'] at h1
    have h2 := hstep_ctr (k + 1) (by omega)
    rw [if_neg (by rw [h1]; decide), h1] at h2
    have h3 := hstep_ctr (k + 2) (by omega)
    rw [if_neg (by rw [h2]; decide), h2] at h3
    have h4 := hstep_ctr (k + 3) (by omega)
    rw [if_neg (by rw [h3]; decide), h3] at h4
    have h5 := hstep_ctr (k + 4) (by omega)
    rw [if_neg (by rw [h4]; decide), h4] at h5
    refine ⟨h1, by simpa using h2, by simpa using h3, by simpa using h4,
      by simpa using h5⟩
  have hcycle : ∀ m, (dirRun v d0 (21 + 5 * m)).keyCounter = 0 ∧
      (dirRun v d0 (22 + 5 * m)).keyCounter = 4 ∧
      (dirRun v d0 (23 + 5 * m)).keyCounter = 3 ∧
      (dirRun v d0 (24 + 5 * m)).keyCounter = 2 ∧
      (dirRun v d0 (25 + 5 * m)).keyCounter = 1 := by
    intro m
    induction m with
    | zero =>
      have h21 : (dirRun v d0 21).keyCounter = 0 := by
        have h := hdown 20 (le_refl 20)
        norm_num at h
        exact h
      have ha := hadv 21 (by omega) h21
      refine ⟨by simpa using h21, ?_, ?_, ?_, ?_⟩ <;>
        · simp only [Nat.mul_zero, Nat.add_zero]
          first
          | exact ha.1
          | exact ha.2.1
          | exact ha.2.2.1
          | exact ha.2.2.2.1
    | succ m ih =>
      have ha := hadv (21 + 5 * m) (by omega) ih.1
      have e1 : 21 + 5 * (m + 1) = 21 + 5 * m + 5 := by ring
      have e2 : 22 + 5 * (m + 1) = 21 + 5 * (m + 1) + 1 := by ring
      have e3 : 23 + 5 * (m + 1) = 21 + 5 * (m + 1) + 2 := by ring
      have e4 : 24 + 5 * (m + 1) = 21 + 5 * (m + 1) + 3 := by ring
      have e5 : 25 + 5 * (m + 1) = 21 + 5 * (m + 1) + 4 := by ring
      have hz : (dirRun v d0 (21 + 5 * (m + 1))).keyCounter = 0 := by
        rw [e1]
        exact ha.2.2.2.2
      have hb := hadv (21 + 5 * (m + 1)) (by omega) hz
      exact ⟨hz, by rw [e2]; exact hb.1, by rw [e3]; exact hb.2.1,
        by rw [e4]; exact hb.2.2.1, by rw [e5]; exact hb.2.2.2.1⟩
  refine ⟨?_, fun d hd => dirStep_zero d hd⟩
  intro k hk1
  rw [hfires k hk1]
  constructor
  · intro hc0
    by_cases hk21 : 21 ≤ k
    · refine ⟨hk21, ?_⟩
      obtain ⟨m, r, hrlt, hkeq⟩ : ∃ m r, r < 5 ∧ k = 21 + 5 * m + r :=
        ⟨(k - 21) / 5, (k - 21) % 5, by omega, by omega⟩
      have hcyc := hcycle m
      rcases (by omega : r = 0 ∨ r = 1 ∨ r = 2 ∨ r = 3 ∨ r = 4) with
        h | h | h | h | h
      · omega
      · exfalso
        have hke : k = 22 + 5 * m := by omega
        rw [hke, hcyc.2.1] at hc0
        exact absurd hc0 (by decide)
      · exfalso
        have hke : k = 23 + 5 * m := by omega
        rw [hke, hcyc.2.2.1] at hc0
        exact absurd hc0 (by decide)
      · exfalso
        have hke : k = 24 + 5 * m := by omega
        rw [hke, hcyc.2.2.2.1] at hc0
        exact absurd hc0 (by decide)
      · exfalso
        have hke : k = 25 + 5 * m := by omega
        rw [hke, hcyc.2.2.2.2] at hc0
        exact absurd hc0 (by decide)
    · exfalso
      have hj : 1 + (k - 1) = k := by omega
      have hd20 := hdown (k - 1) (by omega)
      rw [hj] at hd20
      rw [hd20] at hc0
      omega
  · rintro ⟨hk21, hmod⟩
    obtain ⟨m, hkeq⟩ : ∃ m, k = 21 + 5 * m := ⟨(k - 21) / 5, by omega⟩
    rw [hkeq]
    exact (hcycle m).1

/-- Witness for the amended C3 theorem at the concrete scenario
`c3Sched`/`c3Dir`: the first two firing steps of non-zero intent are 21
and 26. -/
theorem c3_amended_key_repeat_witness :
    dirFires c3Sched c3Dir 21 = true ∧ dirFires c3Sched c3Dir 26 = true := by
  have h := c3_amended_key_repeat c3Sched c3Dir rfl rfl (by decide)
    (fun n hn => by
      simp only [c3Sched]
      rw [if_neg (by omega)]
      intro hc
      exact absurd hc.1 (by decide))
  exact ⟨(h.1 21 (by omega)).mpr (by omega), (h.1 26 (by omega)).mpr (by omega)⟩

/-- C4 (counterexample): the mouse event handlers do not set
`usingKeyboard`: invoking any of them on the initial state (whose flag
is false, and whose mouse callbacks are the default noOp) leaves the
flag false, contradicting the claim that it is true after every mouse
handler invocation.  Their bodies only invoke the user mouse callback. -/
theorem c4_counterexample_mouse_handlers_leave_flag :
    emptyIM.usingKeyboard = false ∧
    (mousedownHandler emptyIM).usingKeyboard = false ∧
    (mouseupHandler emptyIM).usingKeyboard = false ∧
    (mousemoveHandler emptyIM).usingKeyboard = false := by
  decide

/-- A projection preserved by each fold step is preserved by the fold. -/
theorem foldl_preserve {α β γ : Type} (proj : α → γ) (f : α → β → α)
    (h : ∀ a b, proj (f a b) = proj a) (l : List β) (a : α) :
    proj (List.foldl f a l) = proj a := by
  induction l generalizing a with
  | nil => rfl
  | cons b l ih => rw [List.foldl_cons, ih, h]

/-- A projection unchanged between the written element and the
overwritten slot is unchanged at every `getD`. -/
theorem getD_set_proj {α γ : Type} (proj : α → γ) (l : List α) (i : Nat)
    (a dflt : α) (h : proj a = proj (l.getD i dflt)) (j : Nat) :
    proj ((l.set i a).getD j dflt) = proj (l.getD j dflt) := by
  by_cases hij : i = j
  · subst hij
    by_cases hi : i < l.length
    · show proj (((l.set i a).get? i).getD dflt) = _
      rw [List.get?_set_eq_of_lt a hi]
      exact h
    · rw [List.set_eq_of_length_le (Nat.le_of_not_lt hi)]
  · show proj (((l.set i a).get? j).getD dflt) =
      proj ((l.get? j).getD dflt)
    rw [List.get?_set_ne a l hij]

/-- One vector overwrite keeps every directional's axis indices. -/
theorem gpDirOverwrite_axes (gp : Gamepad) (ds : List Directional)
    (p : String × Nat) (j : Nat) :
    ((gpDirOverwrite gp ds p).getD j dDefault).hAxisIndex =
      (ds.getD j dDefault).hAxisIndex ∧
    ((gpDirOverwrite gp ds p).getD j dDefault).vAxisIndex =
      (ds.getD j dDefault).vAxisIndex := by
  simp only [gpDirOverwrite]
  refine ⟨getD_set_proj (fun d => d.hAxisIndex) ds p.2 _ dDefault ?_ j,
    getD_set_proj (fun d => d.vAxisIndex) ds p.2 _ dDefault ?_ j⟩ <;> rfl

/-- One button overwrite keeps every button's gamepad index. -/
theorem gpButtonOverwrite_gpIndex (gp : Gamepad) (st : List ButtonObj)
    (p : String × Nat) (j : Nat) :
    ((gpButtonOverwrite gp st p).getD j bDefault).gpButtonIndex =
      (st.getD j bDefault).gpButtonIndex := by
  simp only [gpButtonOverwrite]
  split
  · rfl
  · split
    · refine getD_set_proj (fun b => b.gpButtonIndex) st p.2 _ bDefault ?_ j
      rfl
    · rfl

/-- The whole vector-overwrite loop keeps axis indices. -/
theorem foldl_dirOverwrite_axes (gp : Gamepad)
    (entries : List (String × Nat)) (ds : List Directional) (j : Nat) :
    ((entries.foldl (gpDirOverwrite gp) ds).getD j dDefault).hAxisIndex =
      (ds.getD j dDefault).hAxisIndex ∧
    ((entries.foldl (gpDirOverwrite gp) ds).getD j dDefault).vAxisIndex =
      (ds.getD j dDefault).vAxisIndex := by
  induction entries generalizing ds with
  | nil => exact ⟨rfl, rfl⟩
  | cons p l ih =>
    rw [List.foldl_cons]
    obtain ⟨h1, h2⟩ := ih (gpDirOverwrite gp ds p)
    obtain ⟨g1, g2⟩ := gpDirOverwrite_axes gp ds p j
    exact ⟨h1.trans g1, h2.trans g2⟩

/-- The whole button-overwrite loop keeps gamepad indices. -/
theorem foldl_buttonOverwrite_gpIndex (gp : Gamepad)
    (entries : List (String × Nat)) (st : List ButtonObj) (j : Nat) :
    ((entries.foldl (gpButtonOverwrite gp) st).getD j
        bDefault).gpButtonIndex =
      (st.getD j bDefault).gpButtonIndex := by
  induction entries generalizing st with
  | nil => rfl
  | cons p l ih =>
    rw [List.foldl_cons]
    exact (ih (gpButtonOverwrite gp st p)).trans
      (gpButtonOverwrite_gpIndex gp st p j)

/-- On a connected gamepad, the flag after `processGamepad` is the old
flag conjoined with the negated axis/button triggers. -/
theorem processGamepad_flag (gp : Gamepad) (s : IMState)
    (hc : gp.connected = true) :
    (processGamepad gp s).usingKeyboard =
      ((s.usingKeyboard &&
        !(s.directionals.any
            (fun p => dirAxisTrigger gp (s.dirStore.getD p.2 dDefault)))) &&
       !(s.buttons.any
           (fun p => gpButtonActive gp (s.store.getD p.2 bDefault)))) := by
  unfold processGamepad
  rw [hc]
  simp only [Bool.not_true, Bool.false_eq_true, if_false]
  split
  · rfl
  · rfl

/-- A disconnected gamepad leaves the state unchanged. -/
theorem processGamepad_disconnected (gp : Gamepad) (s : IMState)
    (hc : ¬gp.connected = true) :
    processGamepad gp s = s := by
  unfold processGamepad
  rw [Bool.not_eq_true] at hc
  rw [hc]
  rfl

/-- Processing one gamepad never turns `usingKeyboard` back on. -/
theorem processGamepad_false (gp : Gamepad) (s : IMState)
    (h : s.usingKeyboard = false) :
    (processGamepad gp s).usingKeyboard = false := by
  by_cases hc : gp.connected = true
  · rw [processGamepad_flag gp s hc, h]
    rfl
  · rw [processGamepad_disconnected gp s hc]
    exact h

/-- Polling the gamepads never turns `usingKeyboard` back on. -/
theorem getGamepadInput_false (gps : List Gamepad) (s : IMState)
    (h : s.usingKeyboard = false) :
    (getGamepadInput gps s).usingKeyboard = false := by
  induction gps generalizing s with
  | nil => exact h
  | cons g l ih => exact ih _ (processGamepad_false g s h)

/-- Processing one gamepad keeps the two name maps and the per-object axis and
gamepad indices, so every trigger predicate is unchanged by it. -/
theorem processGamepad_preserves (gp : Gamepad) (s : IMState) :
    (processGamepad gp s).directionals = s.directionals ∧
    (processGamepad gp s).buttons = s.buttons ∧
    (∀ j, ((processGamepad gp s).dirStore.getD j dDefault).hAxisIndex =
        (s.dirStore.getD j dDefault).hAxisIndex ∧
      ((processGamepad gp s).dirStore.getD j dDefault).vAxisIndex =
        (s.dirStore.getD j dDefault).vAxisIndex) ∧
    (∀ j, ((processGamepad gp s).store.getD j bDefault).gpButtonIndex =
        (s.store.getD j bDefault).gpButtonIndex) := by
  simp only [processGamepad]
  split
  · exact ⟨rfl, rfl, fun _ => ⟨rfl, rfl⟩, fun _ => rfl⟩
  · split
    · exact ⟨rfl, rfl, fun _ => ⟨rfl, rfl⟩, fun _ => rfl⟩
    · refine ⟨rfl, rfl, ?_, ?_⟩
      · intro j
        exact foldl_dirOverwrite_axes gp s.directionals s.dirStore j
      · intro j
        exact foldl_buttonOverwrite_gpIndex gp s.buttons s.store j

/-- The axis trigger only reads the axis indices. -/
theorem dirAxisTrigger_proj (gp : Gamepad) (d e : Directional)
    (hh : d.hAxisIndex = e.hAxisIndex) (hv : d.vAxisIndex = e.vAxisIndex) :
    dirAxisTrigger gp d = dirAxisTrigger gp e := by
  unfold dirAxisTrigger
  rw [hh, hv]

/-- The button trigger only reads the gamepad index. -/
theorem gpButtonActive_proj (gp : Gamepad) (b c : ButtonObj)
    (h : b.gpButtonIndex = c.gpButtonIndex) :
    gpButtonActive gp b = gpButtonActive gp c := by
  unfold gpButtonActive
  rw [h]

/-- Processing one gamepad does not change any gamepad's trigger. -/
theorem gpTrigger_invariant (g gp : Gamepad) (s : IMState) :
    gpTrigger gp (processGamepad g s) = gpTrigger gp s := by
  obtain ⟨hd, hb, hax, hgp⟩ := processGamepad_preserves g s
  unfold gpTrigger
  rw [hd, hb]
  have e1 : (fun p : String × Nat =>
      dirAxisTrigger gp ((processGamepad g s).dirStore.getD p.2 dDefault)) =
      (fun p => dirAxisTrigger gp (s.dirStore.getD p.2 dDefault)) :=
    funext fun p => dirAxisTrigger_proj gp _ _ (hax p.2).1 (hax p.2).2
  have e2 : (fun p : String × Nat =>
      gpButtonActive gp ((processGamepad g s).store.getD p.2 bDefault)) =
      (fun p => gpButtonActive gp (s.store.getD p.2 bDefault)) :=
    funext fun p => gpButtonActive_proj gp _ _ (hgp p.2)
  rw [e1, e2]

/-- A connected, triggering gamepad turns `usingKeyboard` off. -/
theorem processGamepad_trigger_false (gp : Gamepad) (s : IMState)
    (hc : gp.connected = true) (ht : gpTrigger gp s = true) :
    (processGamepad gp s).usingKeyboard = false := by
  rw [processGamepad_flag gp s hc]
  unfold gpTrigger at ht
  cases hA : s.directionals.any
      (fun p => dirAxisTrigger gp (s.dirStore.getD p.2 dDefault)) <;>
    cases hB : s.buttons.any
      (fun p => gpButtonActive gp (s.store.getD p.2 bDefault))
  · rw [hA, hB] at ht
    exact absurd ht (by decide)
  · simp
  · simp
  · simp

/-- Any connected, triggering gamepad in the polled list leaves
`usingKeyboard` off at the end of `getGamepadInput`. -/
theorem getGamepadInput_trigger (gp : Gamepad) :
    ∀ (gps : List Gamepad) (s : IMState), gp ∈ gps →
      gp.connected = true → gpTrigger gp s = true →
      (getGamepadInput gps s).usingKeyboard = false := by
  intro gps
  induction gps with
  | nil =>
    intro s h
    cases h
  | cons g l ih =>
    intro s hmem hc ht
    show (getGamepadInput l (processGamepad g s)).usingKeyboard = false
    rcases List.mem_cons.mp hmem with heq | hmem'
    · subst heq
      exact getGamepadInput_false l _ (processGamepad_trigger_false gp s hc ht)
    · exact ih _ hmem' hc (by rw [gpTrigger_invariant g gp s]; exact ht)

/-- Key event bodies do not write `usingKeyboard`. -/
theorem keyEventBody_flag (down : Bool) (k : String) (s : IMState) :
    (keyEventBody down k s).usingKeyboard = s.usingKeyboard := by
  unfold keyEventBody
  refine (foldl_preserve (fun st : IMState => st.usingKeyboard) _ ?_ _ _).trans
    (foldl_preserve (fun st : IMState => st.usingKeyboard) _ ?_ _ _)
  · intro a b
    dsimp only
    split <;> rfl
  · intro a b
    rfl

/-- C4 (amended): keyboard event handlers always leave `usingKeyboard`
true; the mouse handlers (which only dispatch the user mouse callback)
leave it unchanged; and during gamepad polling, any connected gamepad
with a watched axis whose guarded reading is non-zero or a watched
active gamepad button (`gpTrigger`) leaves `usingKeyboard` false at the
end of `getGamepadInput`. -/
theorem c4_amended_input_authority :
    (∀ (k : String) (s : IMState),
      (keydownHandler k s).usingKeyboard = true) ∧
    (∀ (k : String) (s : IMState),
      (keyupHandler k s).usingKeyboard = true) ∧
    (∀ s : IMState,
      (mousedownHandler s).usingKeyboard = s.usingKeyboard ∧
      (mouseupHandler s).usingKeyboard = s.usingKeyboard ∧
      (mousemoveHandler s).usingKeyboard = s.usingKeyboard) ∧
    (∀ (gps : List Gamepad) (gp : Gamepad) (s : IMState),
      gp ∈ gps → gp.connected = true → gpTrigger gp s = true →
      (getGamepadInput gps s).usingKeyboard = false) := by
  refine ⟨?_, ?_, fun s => ⟨rfl, rfl, rfl⟩, ?_⟩
  · intro k s
    exact (keyEventBody_flag true k _).trans rfl
  · intro k s
    exact (keyEventBody_flag false k _).trans rfl
  · intro gps gp s hmem hc ht
    exact getGamepadInput_trigger gp gps s hmem hc ht

/-- Witness for the amended C4 theorem: a connected gamepad whose
watched button 0 is active turns the flag off even when it was on. -/
theorem c4_amended_input_authority_witness :
    c4S.usingKeyboard = true ∧
    (getGamepadInput [c4Gp] c4S).usingKeyboard = false := by
  refine ⟨rfl, ?_⟩
  exact c4_amended_input_authority.2.2.2 [c4Gp] c4Gp c4S
    (List.mem_singleton.mpr rfl) rfl (by decide)

/-- Key event bodies do not touch the saved-controls slot. -/
theorem keyEventBody_saved (down : Bool) (k : String) (s : IMState) :
    (keyEventBody down k s).savedControls = s.savedControls := by
  unfold keyEventBody
  refine (foldl_preserve (fun st : IMState => st.savedControls) _ ?_ _ _).trans
    (foldl_preserve (fun st : IMState => st.savedControls) _ ?_ _ _)
  · intro a b
    dsimp only
    split <;> rfl
  · intro a b
    rfl

/-- Processing one gamepad does not touch the saved-controls slot. -/
theorem processGamepad_saved (gp : Gamepad) (s : IMState) :
    (processGamepad gp s).savedControls = s.savedControls := by
  simp only [processGamepad]
  split
  · rfl
  · split
    · rfl
    · rfl

/-- Polling the gamepads does not touch the saved-controls slot. -/
theorem getGamepadInput_saved (gps : List Gamepad) (s : IMState) :
    (getGamepadInput gps s).savedControls = s.savedControls := by
  induction gps generalizing s with
  | nil => rfl
  | cons g l ih => exact (ih _).trans (processGamepad_saved g s)

/-- One full `InputManager.step()` does not touch the saved-controls
slot. -/
theorem imStep_saved (gps : List Gamepad) (s : IMState) :
    (imStep gps s).1.savedControls = s.savedControls := by
  show (ageButtons (getGamepadInput gps (stepDirectionals s).1)).savedControls
    = s.savedControls
  have h1 : (stepDirectionals s).1.savedControls = s.savedControls := by
    unfold stepDirectionals
    refine foldl_preserve
      (fun acc : IMState × List Event => acc.1.savedControls) _ ?_ _ _
    intro a b
    rfl
  rw [show (ageButtons (getGamepadInput gps (stepDirectionals s).1)).savedControls
      = (getGamepadInput gps (stepDirectionals s).1).savedControls from rfl,
    getGamepadInput_saved, h1]

/-- No interleaved operation touches the saved-controls slot. -/
theorem applyOp_saved (o : IMOp) (s : IMState) :
    (applyOp o s).savedControls = s.savedControls := by
  cases o with
  | regButton n k g => rfl
  | unregButton n => rfl
  | regDirectional n u r d l hA vA => rfl
  | unregAll => rfl
  | setPressed n t =>
    simp only [applyOp, setOnPressed]
    split <;> rfl
  | setReleased n t =>
    simp only [applyOp, setOnReleased]
    split <;> rfl
  | setDirFunction n t =>
    simp only [applyOp, setDirectionalFunction]
    split <;> rfl
  | keydown k => exact keyEventBody_saved true k _
  | keyup k => exact keyEventBody_saved false k _
  | stepAll gps => exact imStep_saved gps s

/-- C5: after `save()`, any sequence of registrations, unregistrations,
and mutations of control objects, then `restore()`: the two name-keyed
maps are exactly the ones captured at save time — every name registered
at save time maps to the identical Button/Directional object (the same
id, hence reference equality, not a clone) — while the object stores are
NOT rolled back, so mutations made during the saved interval persist
after restore; and `restore()` with no outstanding snapshot changes
nothing. -/
theorem c5_save_restore_aliasing (s : IMState) (ops : List IMOp) :
    ((restore (applyOps ops (save s))).buttons = s.buttons ∧
      (restore (applyOps ops (save s))).directionals = s.directionals ∧
      (restore (applyOps ops (save s))).store =
        (applyOps ops (save s)).store ∧
      (restore (applyOps ops (save s))).dirStore =
        (applyOps ops (save s)).dirStore) ∧
    (∀ t : IMState, t.savedControls = none → restore t = t) := by
  have hsv : (applyOps ops (save s)).savedControls =
      some (s.buttons, s.directionals) :=
    foldl_preserve (fun st : IMState => st.savedControls)
      (fun st o => applyOp o st) (fun a b => applyOp_saved b a) ops (save s)
  constructor
  · unfold restore
    rw [hsv]
    exact ⟨rfl, rfl, rfl, rfl⟩
  · intro t ht
    unfold restore
    rw [ht]

/-- Witness for C5 at a concrete scenario: `restore` with an empty slot
is a no-op, and a register performed after `save` is rolled back by
`restore` (the buttons map returns to its saved value). -/
theorem c5_save_restore_aliasing_witness :
    restore emptyIM = emptyIM ∧
    (restore (applyOps [IMOp.regButton "fire2" "g" none]
        (save (registerButton "fire" "f" none emptyIM)))).buttons =
      (registerButton "fire" "f" none emptyIM).buttons :=
  ⟨(c5_save_restore_aliasing emptyIM []).2 emptyIM rfl,
    (c5_save_restore_aliasing (registerButton "fire" "f" none emptyIM)
      [IMOp.regButton "fire2" "g" none]).1.1⟩

/-- Running `Array.indexOf` on an element not in the list gives -1 (`none`). -/
theorem arrIndexOf_eq_none (l : List Nat) (a : Nat) (h : a ∉ l) :
    arrIndexOf l a = none := by
  induction l with
  | nil => rfl
  | cons x xs ih =>
    have hx : ¬(x == a) = true := by
      simp only [beq_iff_eq]
      intro hxa
      exact h (hxa ▸ List.mem_cons_self x xs)
    show (if x == a then some 0 else (arrIndexOf xs a).map (· + 1)) = none
    rw [if_neg hx, ih (fun hmem => h (List.mem_cons_of_mem x hmem))]
    rfl

/-- C10: `delete()` while the selected polygon is not an element of the
completed list (the in-progress authoring polygon) changes nothing at
all: the whole editor state — completed polygons, background and entity
lists, and all three selection fields — is left unchanged, and the
background/entity deletion branches are never reached. -/
theorem c10_delete_inprogress_noop (e : RoomEditor) (pid : Nat)
    (hp : e.selectedPolygon = some pid)
    (hmem : pid ∉ e.completedPolygons) :
    editorDelete e = e := by
  unfold editorDelete
  rw [hp]
  dsimp only
  rw [arrIndexOf_eq_none e.completedPolygons pid hmem]

/-- Witness for C10 at a concrete editor: the authoring polygon id 5 is
selected but not completed, and `delete()` is the identity even though a
completed polygon, a background and an entity exist. -/
theorem c10_delete_inprogress_noop_witness :
    c10E.selectedPolygon = some 5 ∧ editorDelete c10E = c10E :=
  ⟨rfl, c10_delete_inprogress_noop c10E 5 rfl (by decide)⟩

/-- Reading the slot just appended to a list gives the new element. -/
theorem getD_concat_length {α : Type} (l : List α) (a d : α) :
    (l ++ [a]).getD l.length d = a := by
  show ((l ++ [a]).get? l.length).getD d = a
  rw [List.get?_append_right (le_refl _)]
  simp

/-- Writing the slot just appended to a list replaces the new element. -/
theorem set_concat_length {α : Type} (l : List α) (a b : α) :
    (l ++ [a]).set l.length b = l ++ [b] := by
  induction l with
  | nil => rfl
  | cons x xs ih =>
    show x :: ((xs ++ [a]).set xs.length b) = x :: (xs ++ [b])
    rw [ih]

/-- C6 (amended): in drawBarrier mode, every left-click appends the
clicked world point to the in-progress polygon (creating it on the
first click if absent), and a shift-click completes the polygon exactly
when it has more than 2 points AFTER the append: 3 prior clicks +
shift-click yields a completed 4-point polygon (slot cleared), 2 prior
clicks + shift-click likewise completes a 3-point polygon, and only
with at most 1 prior point does a shift-click leave the polygon
in-progress. -/
theorem c6_amended_drawBarrier (e : RoomEditor) (v : VecQ) (sh : Bool)
    (hm : e.mode = EditorMode.drawBarrier) :
    (∀ pid, e.selectedPolygon = some pid →
      ((editorMousedown sh 0 v e).polyStore =
        e.polyStore.set pid (e.polyStore.getD pid [] ++ [v]) ∧
      (sh = true → (e.polyStore.getD pid [] ++ [v]).length > 2 →
        (editorMousedown sh 0 v e).completedPolygons =
          e.completedPolygons ++ [pid] ∧
        (editorMousedown sh 0 v e).selectedPolygon = none) ∧
      (sh = true → (e.polyStore.getD pid [] ++ [v]).length ≤ 2 →
        (editorMousedown sh 0 v e).completedPolygons =
          e.completedPolygons ∧
        (editorMousedown sh 0 v e).selectedPolygon = some pid) ∧
      (sh = false →
        (editorMousedown sh 0 v e).completedPolygons =
          e.completedPolygons ∧
        (editorMousedown sh 0 v e).selectedPolygon = some pid))) ∧
    (e.selectedPolygon = none →
      (editorMousedown sh 0 v e).polyStore = e.polyStore ++ [[v]] ∧
      (editorMousedown sh 0 v e).selectedPolygon =
        some e.polyStore.length ∧
      (editorMousedown sh 0 v e).completedPolygons =
        e.completedPolygons) := by
  have h02 : ((0 : Nat) == 2) = false := rfl
  constructor
  · intro pid hp
    simp only [editorMousedown, hp, hm, h02, Bool.false_eq_true, if_false,
      if_true]
    refine ⟨?_, ?_, ?_, ?_⟩
    · split
      · split <;> rfl
      · rfl
    · intro hsh hlen
      subst hsh
      rw [if_pos rfl, if_pos hlen]
      exact ⟨rfl, rfl⟩
    · intro hsh hlen
      subst hsh
      rw [if_pos rfl, if_neg (by omega)]
      exact ⟨rfl, rfl⟩
    · intro hsh
      subst hsh
      rw [if_neg (by simp)]
      exact ⟨rfl, rfl⟩
  · intro hp
    simp only [editorMousedown, hp, hm, h02, Bool.false_eq_true, if_false,
      if_true, getD_concat_length, List.nil_append, set_concat_length]
    refine ⟨?_, ?_, ?_⟩ <;>
      · split
        · rfl
        · rfl

/-- Witness for the amended C6 theorem: after two plain clicks, a
shift-click completes the 3-point polygon (and clears the slot). -/
theorem c6_amended_drawBarrier_witness :
    (editorMousedown true 0 ⟨2, 0⟩ c6TwoClicks).completedPolygons = [0] ∧
    (editorMousedown true 0 ⟨2, 0⟩ c6TwoClicks).selectedPolygon = none := by
  have h := ((c6_amended_drawBarrier c6TwoClicks ⟨2, 0⟩ true (by decide)).1 0
    (by decide)).2.1 rfl (by decide)
  exact ⟨by rw [h.1]; decide, h.2⟩

end RPG
